import Mathlib

/-!
Shallow embedding of the webhook route handler of `hookdeck/xata-per-user-db`
(the finished Clerk webhook route, `app/webhooks/clerk/route.ts`, i.e. the
handler that verifies the Hookdeck signature, checks whether a Xata database
named after the event's `data.id` already exists, selects a region from an
IP-geolocation lookup and creates the database).

The handler is a straight-line async function making external calls
(`request.text()`, `verifyWebhookSignature`, `JSON.parse`, `getDatabaseList`,
`fetch` to ip-api, `createDatabase`).  We model each external interaction's
outcome by an `Env` oracle record, and the handler produces, besides the HTTP
response, the ordered trace of the calls it issued, so that ordering and
"no call was made" properties can be stated.  JavaScript exceptions are
modelled by `Option` results (`none` = the call threw); the `try/catch`
structure of the source is reproduced by where each `none` is routed
(the outer catch returns status 500, the inner catch around the geolocation
lookup falls back to the default region).
-/

/-- A database record as returned by the Xata workspace database list
(`dbList.databases`), and as held by the backend. Only the fields the
handler reads/sets are modelled: `name` (compared against `event.data.id`)
and `region` (set at creation). -/
structure DBRecord where
  name : String
  region : String
  deriving DecidableEq, Repr

/-- `event.data` of the parsed JSON event. `id : Option String` models the
JavaScript distinction between `data.id` being a string and being
`undefined` (absent field). -/
structure EventData where
  id : Option String
  deriving DecidableEq, Repr

/-- `event.event_attributes.http_request` of the parsed JSON event. -/
structure HttpRequestAttrs where
  client_ip : Option String
  deriving DecidableEq, Repr

/-- `event.event_attributes` of the parsed JSON event.  `http_request = none`
models the field being `undefined`, in which case accessing `.client_ip`
throws a TypeError. -/
structure EventAttributes where
  http_request : Option HttpRequestAttrs
  deriving DecidableEq, Repr

/-- The parsed JSON event, restricted to the fields the handler reads.
`data = none` / `event_attributes = none` model the field being absent
(`undefined`), so that a further property access throws. -/
structure Event where
  data : Option EventData
  event_attributes : Option EventAttributes
  deriving DecidableEq, Repr

/-- The inbound HTTP request: the header map the handler copies out of
`request.headers`, and the raw body bytes `request.text()` yields. -/
structure Request where
  headers : List (String × String)
  rawBody : String
  deriving DecidableEq, Repr

/-- One external interaction of the handler, recorded in order of issue. -/
inductive Call where
  /-- `verifyWebhookSignature({ headers, rawBody, signingSecret })`. -/
  | verifySig (headers : List (String × String)) (rawBody : String)
  /-- `JSON.parse(rawBody)`. -/
  | parseJson (rawBody : String)
  /-- `xata.databases.getDatabaseList(...)` for the workspace. -/
  | listDatabases
  /-- `fetch("http://ip-api.com/json/" + ip)` + `.json()`. -/
  | ipLookup (ip : String)
  /-- `xata.databases.createDatabase({ pathParams: { dbName, ... }, body: { region } })`.
  `dbName : Option String` because `event.data.id` may be `undefined`. -/
  | createDatabase (dbName : Option String) (region : String)
  deriving DecidableEq, Repr

/-- The body of the `NextResponse.json(...)` the handler returns. -/
inductive RespBody where
  /-- `{ error: "Invalid signature" }`. -/
  | invalidSignature
  /-- `{ message: msg }` — used for "User DB already exists". -/
  | message (msg : String)
  /-- `NextResponse.json(createResult)`: the create call's result, echoing
  the name and region the backend provisioned. -/
  | createResult (dbName : Option String) (region : String)
  /-- `{ error }` from the outer catch. -/
  | caughtError
  deriving DecidableEq, Repr

/-- An HTTP response: status code plus JSON body. -/
structure Response where
  status : Nat
  body : RespBody
  deriving DecidableEq, Repr

/-- The `{ error }, { status: 500 }` response of the outer catch. -/
def resp500 : Response := ⟨500, RespBody.caughtError⟩

/-- Oracle for the outcomes of the handler's external interactions.
`none` everywhere models the corresponding call throwing. -/
structure Env where
  /-- Whether `await request.text()` succeeds (a failed body read throws). -/
  textOk : Bool
  /-- `verificationResult.isValidSignature` from `verifyWebhookSignature`. -/
  verifyResult : Bool
  /-- `JSON.parse(rawBody)`: `none` = SyntaxError, `some ev` = parsed event. -/
  parseResult : Option Event
  /-- `getDatabaseList(...)`: `none` = rejected/ timed out, `some dbs` =
  `dbList.databases`. -/
  listResult : Option (List DBRecord)
  /-- The geolocation lookup: `none` = `fetch`/`.json()` threw, `some cc` =
  `ipLookupData.continentCode` (itself `none` when the field is absent). -/
  ipResult : Option (Option String)
  /-- Whether `createDatabase(...)` succeeds (`false` = the promise rejects). -/
  createOk : Bool
  deriving DecidableEq, Repr

/-- The `switch (ipLookupData.continentCode)` statement: `"EU" → eu-west-1`,
`"OC" → ap-southeast-2`, anything else (including an absent field) leaves
the default `us-east-1`. -/
def continentToRegion (cc : Option String) : String :=
  match cc with
  | some code =>
      if code = "EU" then "eu-west-1"
      else if code = "OC" then "ap-southeast-2"
      else "us-east-1"
  | none => "us-east-1"

/-- The inner `try { fetch(...); switch ... } catch { default }` block:
returns the selected `dbRegion` and the geolocation calls issued.
Accessing `event.event_attributes.http_request.client_ip` throws inside the
`try` when an intermediate field is `undefined`, so no fetch happens and the
default stands; a `client_ip` that is `undefined` interpolates into the URL
as the string `"undefined"`. -/
def regionSelect (ev : Event) (env : Env) : String × List Call :=
  match ev.event_attributes with
  | none => ("us-east-1", [])
  | some ea =>
      match ea.http_request with
      | none => ("us-east-1", [])
      | some hr =>
          let ip := hr.client_ip.getD "undefined"
          match env.ipResult with
          | none => ("us-east-1", [Call.ipLookup ip])
          | some cc => (continentToRegion cc, [Call.ipLookup ip])

/-- The tail of the handler after the existence check found no database:
region selection followed by `createDatabase`.  Building the create call's
`pathParams` reads `event.data.id`, which throws to the outer catch when
`event.data` is `undefined` — after the geolocation calls already ran. -/
def createPhase (ev : Event) (env : Env) : Response × List Call :=
  let sel := regionSelect ev env
  match ev.data with
  | none => (resp500, sel.2)
  | some dd =>
      let calls := sel.2 ++ [Call.createDatabase dd.id sel.1]
      if env.createOk then
        (⟨200, RespBody.createResult dd.id sel.1⟩, calls)
      else
        (resp500, calls)

/-- `db.name === event.data.id` of the `find` callback: a JavaScript strict
equality between the string `db.name` and `event.data.id`, which is `false`
whenever `event.data.id` is `undefined`. -/
def jsStrEq (name : String) (key : Option String) : Bool :=
  match key with
  | some s => name == s
  | none => false

/-- The `POST` route handler of `app/webhooks/clerk/route.ts` (the finished
tutorial version): copy headers, read the raw body, verify the signature
over the raw body, reject with 401 on an invalid signature, parse the JSON,
list the workspace databases, answer 200 "User DB already exists" when a
database named `event.data.id` is present, otherwise select a region and
create the database; every exception reaches the outer catch and yields a
500 `{ error }` response.  Returns the response and the ordered trace of
external calls. -/
def POST (req : Request) (env : Env) : Response × List Call :=
  if env.textOk = false then
    (resp500, [])
  else
    let vcalls := [Call.verifySig req.headers req.rawBody]
    if env.verifyResult = false then
      (⟨401, RespBody.invalidSignature⟩, vcalls)
    else
      let pcalls := vcalls ++ [Call.parseJson req.rawBody]
      match env.parseResult with
      | none => (resp500, pcalls)
      | some ev =>
          let lcalls := pcalls ++ [Call.listDatabases]
          match env.listResult with
          | none => (resp500, lcalls)
          | some dbs =>
              match dbs, ev.data with
              | [], _ =>
                  -- `find` on an empty list never runs its callback, so
                  -- `event.data.id` is not yet read here.
                  let fin := createPhase ev env
                  (fin.1, lcalls ++ fin.2)
              | _ :: _, none =>
                  -- the `find` callback reads `event.data.id` and throws.
                  (resp500, lcalls)
              | d0 :: drest, some dd =>
                  if ((d0 :: drest).find? (fun db => jsStrEq db.name dd.id)).isSome then
                    (⟨200, RespBody.message "User DB already exists"⟩, lcalls)
                  else
                    let fin := createPhase ev env
                    (fin.1, lcalls ++ fin.2)

example :
    POST ⟨[("x-hookdeck-signature", "sig")], "{}"⟩
      ⟨true, false, some ⟨none, none⟩, some [], some none, true⟩ =
    (⟨401, RespBody.invalidSignature⟩,
     [Call.verifySig [("x-hookdeck-signature", "sig")] "{}"]) := by
  decide

/-!
## Sequential delivery semantics

For the idempotence property we close the loop between the handler and the
backend: the workspace's database list is the state, `getDatabaseList`
returns it, and a successful `createDatabase` appends a record.  The Xata
backend rejects a create for a name that already exists, and a `dbName`
that was `undefined` reaches the backend as the URL path segment
`"undefined"`.
-/

/-- Whether the backend already holds a database named `n`. -/
def dbNameTaken (dbs : List DBRecord) (n : String) : Bool :=
  dbs.any (fun db => db.name == n)

/-- The name the handler would pass to `createDatabase`, as the backend sees
it (an `undefined` `event.data.id` interpolates into the URL as
`"undefined"`); `none` when no create call can be built because parsing or
the `data` access fails. -/
def createNameOf (pr : Option Event) : Option String :=
  match pr with
  | some ev =>
      match ev.data with
      | some dd => some (dd.id.getD "undefined")
      | none => none
  | none => none

/-- One delivery's fixed, backend-independent context: the request, the
signature-verification outcome, the parse of its body and the geolocation
answer. -/
structure Delivery where
  req : Request
  sig : Bool
  parsed : Option Event
  geo : Option (Option String)
  deriving Repr

/-- The oracle for one run of the handler against backend state `dbs`:
the body read succeeds, the list call returns the current state, and the
create call succeeds exactly when the requested name is still free. -/
def envFor (d : Delivery) (dbs : List DBRecord) : Env :=
  ⟨true, d.sig, d.parsed, some dbs, d.geo,
   match createNameOf d.parsed with
   | some n => !dbNameTaken dbs n
   | none => false⟩

/-- Effect of one handler call on the backend state: a create for a
still-free name provisions `⟨name, region⟩`, a duplicate create is rejected
and changes nothing, every other call is a read. -/
def applyCall (s : List DBRecord) (c : Call) : List DBRecord :=
  match c with
  | Call.createDatabase key region =>
      let n := key.getD "undefined"
      if dbNameTaken s n then s else s.concat ⟨n, region⟩
  | _ => s

/-- Replay the create calls of a trace against the backend state. -/
def applyCalls (dbs : List DBRecord) (calls : List Call) : List DBRecord :=
  calls.foldl applyCall dbs

/-- One delivery of the event: run `POST` against the current backend state
and apply its create calls, yielding the next state and the HTTP response. -/
def deliver (d : Delivery) (dbs : List DBRecord) : List DBRecord × Response :=
  let run := POST d.req (envFor d dbs)
  (applyCalls dbs run.2, run.1)

/-- `n` sequential deliveries of the same event: final backend state and the
list of responses, in delivery order. -/
def deliverN (d : Delivery) : Nat → List DBRecord → List DBRecord × List Response
  | 0, dbs => (dbs, [])
  | n + 1, dbs =>
      let step := deliver d dbs
      let rest := deliverN d n step.1
      (rest.1, step.2 :: rest.2)

/-- How many databases named `k` the backend holds. -/
def countName (dbs : List DBRecord) (k : String) : Nat :=
  (dbs.filter (fun db => db.name == k)).length

example :
    deliverN ⟨⟨[], "b"⟩, true, some ⟨some ⟨some "user_abc"⟩, none⟩, none⟩ 2 [] =
    ([⟨"user_abc", "us-east-1"⟩],
     [⟨200, RespBody.createResult (some "user_abc") "us-east-1"⟩,
      ⟨200, RespBody.message "User DB already exists"⟩]) := by
  decide

/-!
## Path lemmas about the handler
-/

/-- The geolocation block issues at most one call, an `ipLookup`. -/
lemma regionSelect_calls_shape (ev : Event) (env : Env) :
    (regionSelect ev env).2 = [] ∨ ∃ ip, (regionSelect ev env).2 = [Call.ipLookup ip] := by
  rcases hea : ev.event_attributes with _ | ea
  · left; simp [regionSelect, hea]
  rcases hhr : ea.http_request with _ | hr
  · left; simp [regionSelect, hea, hhr]
  rcases hip : env.ipResult with _ | cc
  · right; exact ⟨hr.client_ip.getD "undefined", by simp [regionSelect, hea, hhr, hip]⟩
  · right; exact ⟨hr.client_ip.getD "undefined", by simp [regionSelect, hea, hhr, hip]⟩

/-- When the geolocation lookup throws, or no geography hint is reachable in
the event, the selected region is the default `us-east-1`. -/
lemma regionSelect_default (ev : Event) (env : Env)
    (h : env.ipResult = none ∨ ev.event_attributes = none) :
    (regionSelect ev env).1 = "us-east-1" := by
  rcases hea : ev.event_attributes with _ | ea
  · simp [regionSelect, hea]
  rcases hhr : ea.http_request with _ | hr
  · simp [regionSelect, hea, hhr]
  rcases h with h | h
  · simp [regionSelect, hea, hhr, h]
  · exact absurd h (by simp [hea])

/-- When the hint path is present and the lookup succeeds, the selected
region is the `switch`'s image of the continent code. -/
lemma regionSelect_mapped (ev : Event) (env : Env) (ea : EventAttributes)
    (hr : HttpRequestAttrs) (cc : Option String)
    (hea : ev.event_attributes = some ea) (hhr : ea.http_request = some hr)
    (hip : env.ipResult = some cc) :
    (regionSelect ev env).1 = continentToRegion cc := by
  simp [regionSelect, hea, hhr, hip]

/-- The run that reaches the create call: valid signature, parseable body,
list call succeeded, and no listed database matches `event.data.id`.  The
response is 200 with the create result when the create succeeds and the
500 catch-all otherwise, and the trace is verify, parse, list, the
geolocation calls, then the create call with the selected region. -/
lemma POST_creates (req : Request) (env : Env) (ev : Event) (dd : EventData)
    (dbs : List DBRecord)
    (ht : env.textOk = true) (hv : env.verifyResult = true)
    (hp : env.parseResult = some ev) (hd : ev.data = some dd)
    (hl : env.listResult = some dbs)
    (hnf : ∀ db ∈ dbs, jsStrEq db.name dd.id = false) :
    POST req env =
      ((if env.createOk then
          ⟨200, RespBody.createResult dd.id (regionSelect ev env).1⟩
        else resp500),
       [Call.verifySig req.headers req.rawBody, Call.parseJson req.rawBody,
        Call.listDatabases]
         ++ (regionSelect ev env).2
         ++ [Call.createDatabase dd.id (regionSelect ev env).1]) := by
  rcases dbs with _ | ⟨d0, drest⟩
  · rcases hck : env.createOk with _ | _ <;>
      simp [POST, ht, hv, hp, hl, createPhase, hd, hck]
  · have hfind : ((d0 :: drest).find? (fun db => jsStrEq db.name dd.id)) = none :=
      List.find?_eq_none.mpr (by intro db hdb; simp [hnf db hdb])
    rcases hck : env.createOk with _ | _ <;>
      simp [POST, ht, hv, hp, hl, hd, hfind, createPhase, hck]

/-- The run that finds the database already listed: response is
200 "User DB already exists" and the trace stops at the list call. -/
lemma POST_found (req : Request) (env : Env) (ev : Event) (dd : EventData)
    (dbs : List DBRecord) (db : DBRecord)
    (ht : env.textOk = true) (hv : env.verifyResult = true)
    (hp : env.parseResult = some ev) (hd : ev.data = some dd)
    (hl : env.listResult = some dbs)
    (hmem : db ∈ dbs) (heq : jsStrEq db.name dd.id = true) :
    POST req env =
      (⟨200, RespBody.message "User DB already exists"⟩,
       [Call.verifySig req.headers req.rawBody, Call.parseJson req.rawBody,
        Call.listDatabases]) := by
  rcases dbs with _ | ⟨d0, drest⟩
  · exact absurd hmem (List.not_mem_nil db)
  · have hfind : ((d0 :: drest).find? (fun db => jsStrEq db.name dd.id)).isSome = true :=
      List.find?_isSome.mpr ⟨db, hmem, heq⟩
    simp [POST, ht, hv, hp, hl, hd, hfind]

/-!
## Backend-state bookkeeping
-/

/-- A trace without create calls leaves the backend untouched. -/
lemma applyCalls_no_create (dbs : List DBRecord) (calls : List Call)
    (h : ∀ key region, Call.createDatabase key region ∉ calls) :
    applyCalls dbs calls = dbs := by
  induction calls generalizing dbs with
  | nil => rfl
  | cons c rest ih =>
      have hc : ∀ key region, Call.createDatabase key region ∉ rest := by
        intro key region hmem
        exact h key region (List.mem_cons_of_mem c hmem)
      rcases c with ⟨hs, b⟩ | b | _ | ip | ⟨key, region⟩
      · simpa [applyCalls, applyCall] using ih dbs hc
      · simpa [applyCalls, applyCall] using ih dbs hc
      · simpa [applyCalls, applyCall] using ih dbs hc
      · simpa [applyCalls, applyCall] using ih dbs hc
      · exact absurd (List.mem_cons_self _ _) (h key region)

/-- Replaying the trace of a create-reaching run: the three mandatory
calls and the optional geolocation call do nothing, and the create call
provisions the database when its name is free. -/
lemma applyCalls_create_trace (dbs : List DBRecord) (hs : List (String × String))
    (b : String) (rc : List Call) (key : Option String) (region : String)
    (hrc : rc = [] ∨ ∃ ip, rc = [Call.ipLookup ip])
    (hfree : dbNameTaken dbs (key.getD "undefined") = false) :
    applyCalls dbs
      ([Call.verifySig hs b, Call.parseJson b, Call.listDatabases]
        ++ rc ++ [Call.createDatabase key region]) =
      dbs.concat ⟨key.getD "undefined", region⟩ := by
  rcases hrc with rfl | ⟨ip, rfl⟩ <;> simp [applyCalls, applyCall, hfree]

/-- Counting occurrences of a name after provisioning that name. -/
lemma countName_concat_self (dbs : List DBRecord) (k region : String) :
    countName (dbs.concat ⟨k, region⟩) k = countName dbs k + 1 := by
  simp [countName, List.concat_eq_append, List.filter_append]

/-- A freshly provisioned name is taken. -/
lemma dbNameTaken_concat_self (dbs : List DBRecord) (k region : String) :
    dbNameTaken (dbs.concat ⟨k, region⟩) k = true := by
  simp [dbNameTaken, List.concat_eq_append, List.any_append]

/-- `countName` is zero exactly when the name is not taken. -/
lemma countName_eq_zero (dbs : List DBRecord) (k : String) :
    countName dbs k = 0 ↔ dbNameTaken dbs k = false := by
  induction dbs with
  | nil => simp [countName, dbNameTaken]
  | cons db rest ih =>
      by_cases h : (db.name == k) = true
      · simp [countName, dbNameTaken, h, List.filter_cons]
      · simp only [countName, dbNameTaken, List.filter_cons, List.any_cons, h,
          if_false, Bool.false_or] at ih ⊢
        exact ih

/-- A name that is not taken matches no listed database. -/
lemma dbNameTaken_eq_false_iff (dbs : List DBRecord) (k : String) :
    dbNameTaken dbs k = false ↔ ∀ db ∈ dbs, (db.name == k) = false := by
  simp [dbNameTaken, List.any_eq_false]

/-!
## Step lemmas for sequential deliveries
-/

/-- Delivering a well-formed signed event whose key is not yet provisioned:
the handler creates the database (in the region its geolocation block
selected) and answers 200 with the create result. -/
lemma deliver_fresh (d : Delivery) (k : String) (ev : Event) (dd : EventData)
    (dbs : List DBRecord)
    (hsig : d.sig = true) (hp : d.parsed = some ev) (hd : ev.data = some dd)
    (hid : dd.id = some k) (h0 : dbNameTaken dbs k = false) :
    deliver d dbs =
      (dbs.concat ⟨k, (regionSelect ev (envFor d dbs)).1⟩,
       ⟨200, RespBody.createResult (some k) (regionSelect ev (envFor d dbs)).1⟩) := by
  have hname : createNameOf d.parsed = some k := by
    simp [createNameOf, hp, hd, hid]
  have hck : (envFor d dbs).createOk = true := by
    simp [envFor, hname, h0]
  have hnf : ∀ db ∈ dbs, jsStrEq db.name dd.id = false := by
    intro db hdb
    simpa [jsStrEq, hid] using (dbNameTaken_eq_false_iff dbs k).mp h0 db hdb
  have hrun := POST_creates d.req (envFor d dbs) ev dd dbs rfl
    (by simp [envFor, hsig]) (by simp [envFor, hp]) hd (by simp [envFor]) hnf
  have happly := applyCalls_create_trace dbs d.req.headers d.req.rawBody
    (regionSelect ev (envFor d dbs)).2 dd.id (regionSelect ev (envFor d dbs)).1
    (regionSelect_calls_shape ev (envFor d dbs)) (by simp [hid, h0])
  simp only [hid, Option.getD_some, List.append_assoc, List.cons_append,
    List.nil_append, List.concat_eq_append] at happly
  simp [deliver, hrun, hck, hid, happly]

/-- Delivering the event when a database named after its key is already
listed: the backend state is unchanged and the handler answers 200
"User DB already exists". -/
lemma deliver_dup (d : Delivery) (k : String) (ev : Event) (dd : EventData)
    (dbs : List DBRecord)
    (hsig : d.sig = true) (hp : d.parsed = some ev) (hd : ev.data = some dd)
    (hid : dd.id = some k) (h1 : dbNameTaken dbs k = true) :
    deliver d dbs = (dbs, ⟨200, RespBody.message "User DB already exists"⟩) := by
  obtain ⟨db, hmem, hbeq⟩ : ∃ db ∈ dbs, (db.name == k) = true := by
    simpa [dbNameTaken, List.any_eq_true] using h1
  have hrun := POST_found d.req (envFor d dbs) ev dd dbs db rfl
    (by simp [envFor, hsig]) (by simp [envFor, hp]) hd (by simp [envFor])
    hmem (by simp [jsStrEq, hid, hbeq])
  simp [deliver, hrun, applyCalls, applyCall]

/-- Once the key's database exists, any further sequence of deliveries of
the same event leaves the backend unchanged and answers 200 every time. -/
lemma deliverN_stable (d : Delivery) (k : String) (ev : Event) (dd : EventData)
    (hsig : d.sig = true) (hp : d.parsed = some ev) (hd : ev.data = some dd)
    (hid : dd.id = some k) :
    ∀ (n : Nat) (dbs : List DBRecord), dbNameTaken dbs k = true →
      (deliverN d n dbs).1 = dbs ∧ ∀ r ∈ (deliverN d n dbs).2, r.status = 200 := by
  intro n
  induction n with
  | zero =>
      intro dbs h
      exact ⟨rfl, by intro r hr; simp [deliverN] at hr⟩
  | succ m ih =>
      intro dbs h
      have hstep := deliver_dup d k ev dd dbs hsig hp hd hid h
      refine ⟨?_, ?_⟩
      · simp [deliverN, hstep, (ih dbs h).1]
      · intro r hr
        simp [deliverN, hstep] at hr
        rcases hr with rfl | hr
        · rfl
        · exact (ih dbs h).2 r hr

/-!
## Claim C1
-/

/-- C1: for any identity key `k`, delivering the `user.created` event for
`k` any number `n ≥ 1` of times to the webhook POST handler (sequentially,
against a backend whose list call returns the current state and whose
create call succeeds exactly for still-free names) results in exactly one
database named `k` existing in the backend afterward, and every such
delivery receives a 2xx response. -/
theorem spec_c1_idempotence (d : Delivery) (k : String) (ev : Event)
    (dd : EventData) (n : Nat) (dbs0 : List DBRecord)
    (hsig : d.sig = true) (hp : d.parsed = some ev) (hd : ev.data = some dd)
    (hid : dd.id = some k) (hn : 1 ≤ n) (h0 : countName dbs0 k = 0) :
    countName (deliverN d n dbs0).1 k = 1 ∧
    ∀ r ∈ (deliverN d n dbs0).2, 200 ≤ r.status ∧ r.status < 300 := by
  obtain ⟨m, rfl⟩ : ∃ m, n = m + 1 := ⟨n - 1, by omega⟩
  have h0' : dbNameTaken dbs0 k = false := (countName_eq_zero dbs0 k).mp h0
  have hstep := deliver_fresh d k ev dd dbs0 hsig hp hd hid h0'
  have htaken : dbNameTaken (dbs0.concat ⟨k, (regionSelect ev (envFor d dbs0)).1⟩) k = true :=
    dbNameTaken_concat_self dbs0 k _
  have hcount : countName (dbs0.concat ⟨k, (regionSelect ev (envFor d dbs0)).1⟩) k = 1 := by
    rw [countName_concat_self, h0]
  have hrest := deliverN_stable d k ev dd hsig hp hd hid m
    (dbs0.concat ⟨k, (regionSelect ev (envFor d dbs0)).1⟩) htaken
  refine ⟨?_, ?_⟩
  · simp only [deliverN, hstep]
    rw [hrest.1]
    exact hcount
  · intro r hr
    simp only [deliverN, hstep, List.mem_cons] at hr
    rcases hr with rfl | hr
    · exact ⟨by norm_num, by norm_num⟩
    · have h200 := hrest.2 r hr
      omega

/-- A concrete delivery context for the witness: a signed request whose
body parses to `{ type: "user.created", data: { id: "user_abc" } }` and
carries no geography hint. -/
def c1Delivery : Delivery :=
  ⟨⟨[("x-hookdeck-signature", "sig")], "raw-user-created-body"⟩, true,
   some ⟨some ⟨some "user_abc"⟩, none⟩, none⟩

theorem spec_c1_idempotence_witness :
    countName (deliverN c1Delivery 3 []).1 "user_abc" = 1 ∧
    ∀ r ∈ (deliverN c1Delivery 3 []).2, 200 ≤ r.status ∧ r.status < 300 :=
  spec_c1_idempotence c1Delivery "user_abc" ⟨some ⟨some "user_abc"⟩, none⟩
    ⟨some "user_abc"⟩ 3 [] rfl rfl rfl rfl (by decide) (by decide)

/-!
## Claims C2, C3, C8
-/

/-- C2: for every inbound request whose signature does not verify against
the configured signing secret (including a missing signature header, which
yields `isValidSignature = false`), the handler responds 401 and makes no
remote call at all: its trace is the verification alone, so neither the
database-list call nor the create call is reached, and the body is never
parsed. -/
theorem spec_c2_signature_gate (req : Request) (env : Env)
    (ht : env.textOk = true) (hv : env.verifyResult = false) :
    (POST req env).1 = ⟨401, RespBody.invalidSignature⟩ ∧
    (POST req env).2 = [Call.verifySig req.headers req.rawBody] ∧
    Call.listDatabases ∉ (POST req env).2 ∧
    (∀ key region, Call.createDatabase key region ∉ (POST req env).2) ∧
    (∀ b, Call.parseJson b ∉ (POST req env).2) := by
  have h : POST req env =
      (⟨401, RespBody.invalidSignature⟩, [Call.verifySig req.headers req.rawBody]) := by
    simp [POST, ht, hv]
  refine ⟨by simp [h], by simp [h], by simp [h], ?_, ?_⟩
  · intro key region
    simp [h]
  · intro b
    simp [h]

theorem spec_c2_signature_gate_witness :
    (POST ⟨[], "tampered-body"⟩ (Env.mk true false none none none false)).1 =
      ⟨401, RespBody.invalidSignature⟩ ∧
    (POST ⟨[], "tampered-body"⟩ (Env.mk true false none none none false)).2 =
      [Call.verifySig [] "tampered-body"] ∧
    Call.listDatabases ∉
      (POST ⟨[], "tampered-body"⟩ (Env.mk true false none none none false)).2 ∧
    (∀ key region, Call.createDatabase key region ∉
      (POST ⟨[], "tampered-body"⟩ (Env.mk true false none none none false)).2) ∧
    (∀ b, Call.parseJson b ∉
      (POST ⟨[], "tampered-body"⟩ (Env.mk true false none none none false)).2) :=
  spec_c2_signature_gate ⟨[], "tampered-body"⟩ (Env.mk true false none none none false)
    rfl rfl

/-- C3: for every delivery whose `event.data.id` matches the name of a
database already present in the backend's list, the handler responds 200
with the "User DB already exists" message and issues no create call. -/
theorem spec_c3_already_exists (req : Request) (env : Env) (ev : Event)
    (dd : EventData) (dbs : List DBRecord) (db : DBRecord) (k : String)
    (ht : env.textOk = true) (hv : env.verifyResult = true)
    (hp : env.parseResult = some ev) (hd : ev.data = some dd)
    (hid : dd.id = some k) (hl : env.listResult = some dbs)
    (hmem : db ∈ dbs) (hname : db.name = k) :
    (POST req env).1 = ⟨200, RespBody.message "User DB already exists"⟩ ∧
    ∀ key region, Call.createDatabase key region ∉ (POST req env).2 := by
  have hrun := POST_found req env ev dd dbs db ht hv hp hd hl hmem
    (by simp [jsStrEq, hid, hname])
  refine ⟨by simp [hrun], ?_⟩
  intro key region
  simp [hrun]

theorem spec_c3_already_exists_witness :
    (POST ⟨[], "replayed-body"⟩
      (Env.mk true true (some ⟨some ⟨some "user_abc"⟩, none⟩)
        (some [⟨"user_abc", "us-east-1"⟩]) none true)).1 =
      ⟨200, RespBody.message "User DB already exists"⟩ ∧
    ∀ key region, Call.createDatabase key region ∉
      (POST ⟨[], "replayed-body"⟩
        (Env.mk true true (some ⟨some ⟨some "user_abc"⟩, none⟩)
          (some [⟨"user_abc", "us-east-1"⟩]) none true)).2 :=
  spec_c3_already_exists ⟨[], "replayed-body"⟩
    (Env.mk true true (some ⟨some ⟨some "user_abc"⟩, none⟩)
      (some [⟨"user_abc", "us-east-1"⟩]) none true)
    ⟨some ⟨some "user_abc"⟩, none⟩ ⟨some "user_abc"⟩
    [⟨"user_abc", "us-east-1"⟩] ⟨"user_abc", "us-east-1"⟩ "user_abc"
    rfl rfl rfl rfl rfl rfl (by decide) rfl

/-- C8: for every delivery in which the existence-check (database list)
call fails or times out (the promise rejects), the handler responds with a
5xx retryable status (the outer catch's 500) and no create call is
attempted. -/
theorem spec_c8_list_failure_retryable (req : Request) (env : Env) (ev : Event)
    (ht : env.textOk = true) (hv : env.verifyResult = true)
    (hp : env.parseResult = some ev) (hl : env.listResult = none) :
    500 ≤ (POST req env).1.status ∧ (POST req env).1.status < 600 ∧
    ∀ key region, Call.createDatabase key region ∉ (POST req env).2 := by
  have hrun : POST req env =
      (resp500,
       [Call.verifySig req.headers req.rawBody, Call.parseJson req.rawBody,
        Call.listDatabases]) := by
    simp [POST, ht, hv, hp, hl]
  refine ⟨by simp [hrun, resp500], by simp [hrun, resp500], ?_⟩
  intro key region
  simp [hrun]

theorem spec_c8_list_failure_retryable_witness :
    500 ≤ (POST ⟨[], "signed-body"⟩
      (Env.mk true true (some ⟨some ⟨some "user_abc"⟩, none⟩) none none true)).1.status ∧
    (POST ⟨[], "signed-body"⟩
      (Env.mk true true (some ⟨some ⟨some "user_abc"⟩, none⟩) none none true)).1.status < 600 ∧
    ∀ key region, Call.createDatabase key region ∉
      (POST ⟨[], "signed-body"⟩
        (Env.mk true true (some ⟨some ⟨some "user_abc"⟩, none⟩) none none true)).2 :=
  spec_c8_list_failure_retryable ⟨[], "signed-body"⟩
    (Env.mk true true (some ⟨some ⟨some "user_abc"⟩, none⟩) none none true)
    ⟨some ⟨some "user_abc"⟩, none⟩ rfl rfl rfl rfl

/-!
## Claim C10 and further branch lemmas
-/

/-- Status of the create phase: 200 when the create call succeeds, the
outer catch's 500 when it rejects or when reading `event.data.id` throws. -/
lemma createPhase_status (ev : Event) (env : Env) :
    (createPhase ev env).1.status = 200 ∨ (createPhase ev env).1.status = 500 := by
  rcases hd : ev.data with _ | dd
  · simp [createPhase, hd, resp500]
  rcases hck : env.createOk with _ | _
  · simp [createPhase, hd, hck, resp500]
  · simp [createPhase, hd, hck]

/-- In the branch where the list call succeeded and no matching database
was found (or the list was empty), the handler's response is exactly the
create phase's response. -/
lemma POST_resp_of_createPhase (req : Request) (env : Env) (ev : Event)
    (dbs : List DBRecord)
    (ht : env.textOk = true) (hv : env.verifyResult = true)
    (hp : env.parseResult = some ev) (hl : env.listResult = some dbs)
    (hbranch : dbs = [] ∨ ∃ dd, ev.data = some dd ∧
      (dbs.find? (fun db => jsStrEq db.name dd.id)).isSome = false) :
    (POST req env).1 = (createPhase ev env).1 := by
  rcases hbranch with rfl | ⟨dd, hd, hfind⟩
  · simp [POST, ht, hv, hp, hl]
  rcases dbs with _ | ⟨d0, drest⟩
  · simp [POST, ht, hv, hp, hl]
  · simp [POST, ht, hv, hp, hl, hd, hfind]

/-- C10: the handler is total at its boundary: every execution returns
exactly one HTTP response whose status is 200, 401 or 500; every modelled
exception (body read, JSON parse, `data.id` access, list or create
failure) is routed to the outer catch's 500 response rather than escaping. -/
theorem spec_c10_response_totality (req : Request) (env : Env) :
    (POST req env).1.status = 200 ∨ (POST req env).1.status = 401 ∨
    (POST req env).1.status = 500 := by
  rcases ht : env.textOk with _ | _
  · simp [POST, ht, resp500]
  rcases hv : env.verifyResult with _ | _
  · simp [POST, ht, hv]
  rcases hp : env.parseResult with _ | ev
  · simp [POST, ht, hv, hp, resp500]
  rcases hl : env.listResult with _ | dbs
  · simp [POST, ht, hv, hp, hl, resp500]
  rcases dbs with _ | ⟨d0, drest⟩
  · have h := POST_resp_of_createPhase req env ev [] ht hv hp hl (Or.inl rfl)
    rw [h]
    rcases createPhase_status ev env with h2 | h2
    · exact Or.inl h2
    · exact Or.inr (Or.inr h2)
  rcases hd : ev.data with _ | dd
  · simp [POST, ht, hv, hp, hl, hd, resp500]
  by_cases hfind : (((d0 :: drest).find? (fun db => jsStrEq db.name dd.id)).isSome = true)
  · simp [POST, ht, hv, hp, hl, hd, hfind]
  · have h := POST_resp_of_createPhase req env ev (d0 :: drest) ht hv hp hl
      (Or.inr ⟨dd, hd, by simpa using hfind⟩)
    rw [h]
    rcases createPhase_status ev env with h2 | h2
    · exact Or.inl h2
    · exact Or.inr (Or.inr h2)

/-!
## Claim C9
-/

/-- The geolocation-and-create tail never parses JSON. -/
lemma createPhase_no_parse (ev : Event) (env : Env) (b : String) :
    Call.parseJson b ∉ (createPhase ev env).2 := by
  rcases regionSelect_calls_shape ev env with hs | ⟨ip, hs⟩ <;>
    rcases hd : ev.data with _ | dd <;>
    rcases hck : env.createOk with _ | _ <;>
    simp [createPhase, hd, hck, hs]

/-- Shape of every trace the handler can produce: either nothing ran, or
only the verification ran, or the trace starts with the verification over
the raw request body immediately followed by the JSON parse of that same
raw body — and the remainder contains no further parse. -/
lemma POST_trace_shape (req : Request) (env : Env) :
    (POST req env).2 = [] ∨
    (POST req env).2 = [Call.verifySig req.headers req.rawBody] ∨
    ∃ rest, (POST req env).2 =
        Call.verifySig req.headers req.rawBody ::
          Call.parseJson req.rawBody :: rest ∧
      ∀ b, Call.parseJson b ∉ rest := by
  rcases ht : env.textOk with _ | _
  · left
    simp [POST, ht]
  rcases hv : env.verifyResult with _ | _
  · right; left
    simp [POST, ht, hv]
  rcases hp : env.parseResult with _ | ev
  · right; right
    exact ⟨[], by simp [POST, ht, hv, hp], by simp⟩
  rcases hl : env.listResult with _ | dbs
  · right; right
    exact ⟨[Call.listDatabases], by simp [POST, ht, hv, hp, hl], by simp⟩
  rcases dbs with _ | ⟨d0, drest⟩
  · right; right
    refine ⟨Call.listDatabases :: (createPhase ev env).2,
      by simp [POST, ht, hv, hp, hl], ?_⟩
    intro b
    simp [createPhase_no_parse ev env b]
  rcases hd : ev.data with _ | dd
  · right; right
    exact ⟨[Call.listDatabases], by simp [POST, ht, hv, hp, hl, hd], by simp⟩
  by_cases hfind : (((d0 :: drest).find? (fun db => jsStrEq db.name dd.id)).isSome = true)
  · right; right
    exact ⟨[Call.listDatabases], by simp [POST, ht, hv, hp, hl, hd, hfind], by simp⟩
  · right; right
    refine ⟨Call.listDatabases :: (createPhase ev env).2,
      by simp [POST, ht, hv, hp, hl, hd, hfind], ?_⟩
    intro b
    simp [createPhase_no_parse ev env b]

/-- C9: in every execution, whenever the body is JSON-parsed at all, the
parsed string is exactly the raw body as received, and the signature
verification over those same raw bytes happened strictly before the
parse (the trace begins with the verification, the parse comes second). -/
theorem spec_c9_verify_raw_before_parse (req : Request) (env : Env) (b : String)
    (hmem : Call.parseJson b ∈ (POST req env).2) :
    b = req.rawBody ∧
    ∃ rest, (POST req env).2 =
      Call.verifySig req.headers req.rawBody ::
        Call.parseJson req.rawBody :: rest := by
  rcases POST_trace_shape req env with h | h | ⟨rest, h, hrest⟩
  · rw [h] at hmem
    exact absurd hmem (List.not_mem_nil _)
  · rw [h] at hmem
    simp at hmem
  · rw [h] at hmem
    simp only [List.mem_cons] at hmem
    rcases hmem with h1 | h1 | h1
    · exact absurd h1 (by simp)
    · have hb : b = req.rawBody := by
        simpa using h1
      exact ⟨hb, rest, h⟩
    · exact absurd h1 (hrest b)

theorem spec_c9_verify_raw_before_parse_witness :
    Call.parseJson "exact-raw-bytes" ∈
      (POST ⟨[("x-hookdeck-signature", "sig")], "exact-raw-bytes"⟩
        (Env.mk true true (some ⟨some ⟨some "user_abc"⟩, none⟩) none none true)).2 ∧
    ("exact-raw-bytes" = "exact-raw-bytes" ∧
     ∃ rest, (POST ⟨[("x-hookdeck-signature", "sig")], "exact-raw-bytes"⟩
        (Env.mk true true (some ⟨some ⟨some "user_abc"⟩, none⟩) none none true)).2 =
       Call.verifySig [("x-hookdeck-signature", "sig")] "exact-raw-bytes" ::
         Call.parseJson "exact-raw-bytes" :: rest) :=
  ⟨by decide,
   spec_c9_verify_raw_before_parse
     ⟨[("x-hookdeck-signature", "sig")], "exact-raw-bytes"⟩
     (Env.mk true true (some ⟨some ⟨some "user_abc"⟩, none⟩) none none true)
     "exact-raw-bytes" (by decide)⟩

/-!
## Claim C5
-/

/-- Any create call the create phase issues carries the region the
geolocation block selected, and names `event.data.id`. -/
lemma createPhase_create_mem (ev : Event) (env : Env) (key : Option String)
    (region : String)
    (h : Call.createDatabase key region ∈ (createPhase ev env).2) :
    region = (regionSelect ev env).1 ∧ ∃ dd, ev.data = some dd ∧ key = dd.id := by
  rcases regionSelect_calls_shape ev env with hs | ⟨ip, hs⟩ <;>
    rcases hd : ev.data with _ | dd <;>
    rcases hck : env.createOk with _ | _ <;>
      simp [createPhase, hd, hck, hs] at h <;>
      exact ⟨h.2, dd, rfl, h.1⟩

/-- Any create call the handler issues carries the region the geolocation
block selected for the parsed event. -/
lemma POST_create_mem (req : Request) (env : Env) (ev : Event)
    (key : Option String) (region : String)
    (hp : env.parseResult = some ev)
    (h : Call.createDatabase key region ∈ (POST req env).2) :
    region = (regionSelect ev env).1 := by
  rcases ht : env.textOk with _ | _
  · simp [POST, ht] at h
  rcases hv : env.verifyResult with _ | _
  · simp [POST, ht, hv] at h
  rcases hl : env.listResult with _ | dbs
  · simp [POST, ht, hv, hp, hl] at h
  rcases dbs with _ | ⟨d0, drest⟩
  · simp [POST, ht, hv, hp, hl] at h
    exact (createPhase_create_mem ev env key region (by simpa using h)).1
  rcases hd : ev.data with _ | dd
  · simp [POST, ht, hv, hp, hl, hd] at h
  by_cases hfind : (((d0 :: drest).find? (fun db => jsStrEq db.name dd.id)).isSome = true)
  · simp [POST, ht, hv, hp, hl, hd, hfind] at h
  · simp [POST, ht, hv, hp, hl, hd, hfind] at h
    exact (createPhase_create_mem ev env key region (by simpa using h)).1

/-- C5: region selection is the pure `switch` mapping — continent code
`EU` yields `eu-west-1`, `OC` yields `ap-southeast-2`, any other code
yields the default `us-east-1`; when the geography hint is present and the
lookup succeeds the selected region is that mapping's image, and every
create call the handler issues carries the selected region. -/
theorem spec_c5_region_mapping :
    continentToRegion (some "EU") = "eu-west-1" ∧
    continentToRegion (some "OC") = "ap-southeast-2" ∧
    (∀ cc : Option String, cc ≠ some "EU" → cc ≠ some "OC" →
      continentToRegion cc = "us-east-1") ∧
    (∀ (ev : Event) (env : Env) (ea : EventAttributes) (hr : HttpRequestAttrs)
       (cc : Option String),
       ev.event_attributes = some ea → ea.http_request = some hr →
       env.ipResult = some cc →
       (regionSelect ev env).1 = continentToRegion cc) ∧
    (∀ (req : Request) (env : Env) (ev : Event) (key : Option String)
       (region : String),
       env.parseResult = some ev →
       Call.createDatabase key region ∈ (POST req env).2 →
       region = (regionSelect ev env).1) := by
  refine ⟨rfl, rfl, ?_, ?_, ?_⟩
  · intro cc hEU hOC
    rcases cc with _ | code
    · rfl
    · have h1 : ¬(code = "EU") := fun h => hEU (by rw [h])
      have h2 : ¬(code = "OC") := fun h => hOC (by rw [h])
      simp [continentToRegion, h1, h2]
  · intro ev env ea hr cc hea hhr hip
    exact regionSelect_mapped ev env ea hr cc hea hhr hip
  · intro req env ev key region hp h
    exact POST_create_mem req env ev key region hp h

/-- A concrete event carrying a client IP, and an oracle resolving it to
continent `EU`, for the C5 witness. -/
def c5Event : Event := ⟨some ⟨some "user_abc"⟩, some ⟨some ⟨some "1.2.3.4"⟩⟩⟩

def c5Env : Env := Env.mk true true (some c5Event) (some []) (some (some "EU")) true

theorem spec_c5_region_mapping_witness :
    continentToRegion (some "EU") = "eu-west-1" ∧
    continentToRegion (some "ZZ") = "us-east-1" ∧
    (regionSelect c5Event c5Env).1 = continentToRegion (some "EU") ∧
    "eu-west-1" = (regionSelect c5Event c5Env).1 :=
  ⟨spec_c5_region_mapping.1,
   spec_c5_region_mapping.2.2.1 (some "ZZ") (by decide) (by decide),
   spec_c5_region_mapping.2.2.2.1 c5Event c5Env ⟨some ⟨some "1.2.3.4"⟩⟩
     ⟨some "1.2.3.4"⟩ (some "EU") rfl rfl rfl,
   spec_c5_region_mapping.2.2.2.2 ⟨[], "signed-eu-body"⟩ c5Env c5Event
     (some "user_abc") "eu-west-1" rfl (by decide)⟩

/-!
## Claim C6
-/

/-- The create phase's status does not depend on the geolocation outcome
(only the selected region does, and a region never fails the phase). -/
lemma createPhase_status_ignores_geo (ev : Event) (env : Env)
    (g : Option (Option String)) :
    (createPhase ev (Env.mk env.textOk env.verifyResult env.parseResult
        env.listResult g env.createOk)).1.status
      = (createPhase ev env).1.status := by
  rcases hd : ev.data with _ | dd
  · simp [createPhase, hd]
  rcases hck : env.createOk with _ | _ <;> simp [createPhase, hd, hck]

/-- The handler's response status does not depend on the geolocation
outcome: the inner catch absorbs a lookup failure and only the selected
region changes. -/
lemma POST_status_ignores_geo (req : Request) (env : Env)
    (g : Option (Option String)) :
    (POST req (Env.mk env.textOk env.verifyResult env.parseResult
        env.listResult g env.createOk)).1.status
      = (POST req env).1.status := by
  rcases ht : env.textOk with _ | _
  · simp [POST, ht]
  rcases hv : env.verifyResult with _ | _
  · simp [POST, ht, hv]
  rcases hp : env.parseResult with _ | ev
  · simp [POST, ht, hv, hp]
  rcases hl : env.listResult with _ | dbs
  · simp [POST, ht, hv, hp, hl]
  rcases dbs with _ | ⟨d0, drest⟩
  · have h1 := POST_resp_of_createPhase req
      (Env.mk env.textOk env.verifyResult env.parseResult env.listResult g env.createOk)
      ev [] ht hv hp hl (Or.inl rfl)
    have h2 := POST_resp_of_createPhase req env ev [] ht hv hp hl (Or.inl rfl)
    rw [ht, hv, hp, hl] at h1
    rw [h1, h2]
    have h3 := createPhase_status_ignores_geo ev env g
    rw [ht, hv, hp, hl] at h3
    exact h3
  rcases hd : ev.data with _ | dd
  · simp [POST, ht, hv, hp, hl, hd]
  by_cases hfind : (((d0 :: drest).find? (fun db => jsStrEq db.name dd.id)).isSome = true)
  · simp [POST, ht, hv, hp, hl, hd, hfind]
  · have hb : (d0 :: drest) = [] ∨ ∃ dd2, ev.data = some dd2 ∧
        (((d0 :: drest)).find? (fun db => jsStrEq db.name dd2.id)).isSome = false :=
      Or.inr ⟨dd, hd, by simpa using hfind⟩
    have h1 := POST_resp_of_createPhase req
      (Env.mk env.textOk env.verifyResult env.parseResult env.listResult g env.createOk)
      ev (d0 :: drest) ht hv hp hl hb
    have h2 := POST_resp_of_createPhase req env ev (d0 :: drest) ht hv hp hl hb
    rw [ht, hv, hp, hl] at h1
    rw [h1, h2]
    have h3 := createPhase_status_ignores_geo ev env g
    rw [ht, hv, hp, hl] at h3
    exact h3

/-- C6: when the geolocation lookup fails (or no geography hint is
reachable in the event), the failure is absorbed by the inner catch: the
handler still proceeds to create the database with the default region
`us-east-1`, and the response status is the same as it would have been
with any geolocation outcome. -/
theorem spec_c6_geo_failure_soft (req : Request) (env : Env) (ev : Event)
    (dd : EventData) (dbs : List DBRecord)
    (ht : env.textOk = true) (hv : env.verifyResult = true)
    (hp : env.parseResult = some ev) (hd : ev.data = some dd)
    (hl : env.listResult = some dbs)
    (hnf : ∀ db ∈ dbs, jsStrEq db.name dd.id = false)
    (hfail : env.ipResult = none ∨ ev.event_attributes = none) :
    Call.createDatabase dd.id "us-east-1" ∈ (POST req env).2 ∧
    ∀ g : Option (Option String),
      (POST req (Env.mk env.textOk env.verifyResult env.parseResult
          env.listResult g env.createOk)).1.status
        = (POST req env).1.status := by
  have hreg : (regionSelect ev env).1 = "us-east-1" :=
    regionSelect_default ev env hfail
  have hrun := POST_creates req env ev dd dbs ht hv hp hd hl hnf
  refine ⟨?_, fun g => POST_status_ignores_geo req env g⟩
  rw [hrun]
  simp [hreg]

/-- A concrete run for the C6 witness: the event carries a client IP but
the ip-api fetch throws (`ipResult = none`); the database list is empty. -/
def c6Env : Env :=
  Env.mk true true (some ⟨some ⟨some "user_abc"⟩, some ⟨some ⟨some "9.9.9.9"⟩⟩⟩)
    (some []) none true

theorem spec_c6_geo_failure_soft_witness :
    Call.createDatabase (some "user_abc") "us-east-1" ∈
      (POST ⟨[], "signed-body"⟩ c6Env).2 ∧
    ∀ g : Option (Option String),
      (POST ⟨[], "signed-body"⟩ (Env.mk c6Env.textOk c6Env.verifyResult
          c6Env.parseResult c6Env.listResult g c6Env.createOk)).1.status
        = (POST ⟨[], "signed-body"⟩ c6Env).1.status :=
  spec_c6_geo_failure_soft ⟨[], "signed-body"⟩ c6Env
    ⟨some ⟨some "user_abc"⟩, some ⟨some ⟨some "9.9.9.9"⟩⟩⟩ ⟨some "user_abc"⟩ []
    rfl rfl rfl rfl rfl (by decide) (Or.inl rfl)

/-!
## Claims C4 and C7

The source's `createDatabase` call has no dedicated error handling: any
rejection — including "name already taken", the race the spec discusses —
falls through to the outer catch and is answered 500, not 200.  Likewise
there is no 400 path anywhere in the handler: an unparseable body or a
missing `data` field throws and is answered 500.
-/

/-- A run where the existence check saw no database but the create call
then rejects (e.g. a concurrent delivery provisioned `user_abc` in
between): the oracle lists no databases yet fails the create. -/
def c4Env : Env :=
  Env.mk true true (some ⟨some ⟨some "user_abc"⟩, none⟩) (some []) none false

/-- C4 counterexample: when the create call fails after the existence
check passed (the duplicate race), the handler answers status 500 — not a
2xx — and its body is the catch-all error, not the "already exists"
message, refuting the claim at this input. -/
theorem spec_c4_counterexample :
    (POST ⟨[], "raced-body"⟩ c4Env).1.status = 500 ∧
    ¬(200 ≤ (POST ⟨[], "raced-body"⟩ c4Env).1.status ∧
      (POST ⟨[], "raced-body"⟩ c4Env).1.status < 300) ∧
    (POST ⟨[], "raced-body"⟩ c4Env).1.body ≠
      RespBody.message "User DB already exists" := by
  decide

/-- C4 amended: if the create call fails — for any reason, including a
resource with the same identity key appearing between the existence check
and the create — the handler responds with the outer catch's 500 error
response (so the gateway retries, and the retry is answered 200 "already
exists" by the existence check), not with a 2xx. -/
theorem spec_c4_create_failure_is_500 (req : Request) (env : Env) (ev : Event)
    (dd : EventData) (dbs : List DBRecord)
    (ht : env.textOk = true) (hv : env.verifyResult = true)
    (hp : env.parseResult = some ev) (hd : ev.data = some dd)
    (hl : env.listResult = some dbs)
    (hnf : ∀ db ∈ dbs, jsStrEq db.name dd.id = false)
    (hck : env.createOk = false) :
    (POST req env).1 = resp500 := by
  have hrun := POST_creates req env ev dd dbs ht hv hp hd hl hnf
  rw [hrun]
  simp [hck]

theorem spec_c4_create_failure_is_500_witness :
    (POST ⟨[], "raced-body-2"⟩ c4Env).1 = resp500 :=
  spec_c4_create_failure_is_500 ⟨[], "raced-body-2"⟩ c4Env
    ⟨some ⟨some "user_abc"⟩, none⟩ ⟨some "user_abc"⟩ []
    rfl rfl rfl rfl rfl (by decide) rfl

/-- A run whose body is not valid JSON: `JSON.parse` throws. -/
def c7Env : Env := Env.mk true true none none none false

/-- C7 counterexample: a request whose body fails to parse is answered
with status 500 (the outer catch), not with the claimed 400. -/
theorem spec_c7_counterexample :
    (POST ⟨[], "not-json"⟩ c7Env).1.status = 500 ∧
    (POST ⟨[], "not-json"⟩ c7Env).1.status ≠ 400 := by
  decide

/-- C7 amended: a request whose body is not valid JSON, or whose parsed
event lacks the `data` object (so reading `data.id` throws), is answered
by the outer catch with status 500 — a retryable status; the handler has
no 400 path, and a missing `type` field is not rejected at all. -/
theorem spec_c7_malformed_is_500 (req : Request) (env : Env)
    (ht : env.textOk = true) (hv : env.verifyResult = true)
    (hmal : env.parseResult = none ∨
      ∃ ev, env.parseResult = some ev ∧ ev.data = none) :
    (POST req env).1.status = 500 := by
  rcases hmal with hp | ⟨ev, hp, hd⟩
  · simp [POST, ht, hv, hp, resp500]
  rcases hl : env.listResult with _ | dbs
  · simp [POST, ht, hv, hp, hl, resp500]
  rcases dbs with _ | ⟨d0, drest⟩
  · have h := POST_resp_of_createPhase req env ev [] ht hv hp hl (Or.inl rfl)
    rw [h]
    simp [createPhase, hd, resp500]
  · simp [POST, ht, hv, hp, hl, hd, resp500]

theorem spec_c7_malformed_is_500_witness :
    (POST ⟨[], "missing-data-body"⟩
      (Env.mk true true (some ⟨none, none⟩) (some []) none true)).1.status = 500 :=
  spec_c7_malformed_is_500 ⟨[], "missing-data-body"⟩
    (Env.mk true true (some ⟨none, none⟩) (some []) none true)
    rfl rfl (Or.inr ⟨⟨none, none⟩, rfl, rfl⟩)
